import Mathlib

/-
Verification of the transaction reconciliation engine of sql-golang-playground.

Shallow embedding of the Go source:
  * models/transaction.go            -> Transaction, ExternalTransaction
  * reconciliation.go                -> normalizeDBTransactionType, reconcileTransactions
                                        (matching core and report lines)
  * internal/util/data_loader.go     -> LoadExternalTransactions (csvDataLoader)
  * service copy of the matcher (ReconcileTransactions of
    reconciliationServiceImpl)      -> Service namespace

Modelling conventions:
  * Go float64 amounts are modelled as Rat; the algorithm only uses exact
    equality of amounts, which Rat shares with float64 on the decimal
    literals that occur in feeds (NaN/Inf never arise from the loader).
  * sql.NullInt64 / sql.NullString are modelled as Option Int / Option String
    (the code only ever reads the Valid flag and the payload).
  * Go map[K]bool used as a set of keys-set-to-true is modelled as a List K
    of the marked keys, queried with List.contains; the code never ranges
    over these maps, so map iteration order is irrelevant.
  * strings.ToUpper / strings.TrimSpace are modelled for ASCII input with
    Char.toUpper / a character-list trim.
-/

/-- Go strings.ToUpper, restricted to the ASCII case handled by Char.toUpper;
written over the character list so that it evaluates by kernel reduction. -/
def goToUpper (s : String) : String :=
  ⟨s.data.map Char.toUpper⟩

/-- Go strings.TrimSpace (ASCII whitespace), over the character list. -/
def goTrim (s : String) : String :=
  ⟨((s.data.dropWhile Char.isWhitespace).reverse.dropWhile Char.isWhitespace).reverse⟩

/-- models.Transaction (models/transaction.go).  sql.NullInt64 and
sql.NullString become Option; TransactionTs (time.Time) becomes a Nat
timestamp, it is never read by the reconciliation engine. -/
structure Transaction where
  transactionID : Int
  fromAccountID : Option Int
  toAccountID : Option Int
  transactionType : String
  amount : Rat
  transactionTs : Nat
  description : Option String
  notes : Option String
deriving DecidableEq

/-- models.ExternalTransaction (models/transaction.go). -/
structure ExternalTransaction where
  externalID : String
  amount : Rat
  type : String
  reference : String
deriving DecidableEq

/-- reconciliation.go normalizeDBTransactionType: switch on the upper-cased
type; inside the TRANSFER case an if/else-if chain on the Valid flags of the
two account ids, falling through to the final `return dbType` when neither
branch fires. -/
def normalizeDBTransactionType (dbType : String) (fromID toID : Option Int) : String :=
  let dbType := goToUpper dbType
  if dbType = "DEPOSIT" then "DEPOSIT"
  else if dbType = "WITHDRAWAL" then "WITHDRAWAL"
  else if dbType = "TRANSFER" then
    if fromID.isSome && !toID.isSome then "TRANSFER_OUT"
    else if !fromID.isSome && toID.isSome then "TRANSFER_IN"
    else if fromID.isSome && toID.isSome then "INTERNAL_TRANSFER"
    else dbType
  else dbType

/-- A Go slice value: distinguishes the nil slice (the zero value of
`var transactions []models.ExternalTransaction`) from a non-nil slice;
appending to nil allocates a non-nil slice, as Go append does. -/
inductive GoSlice (α : Type) where
  | nil : GoSlice α
  | mk (elems : List α) : GoSlice α
deriving DecidableEq

/-- Whether the slice is Go nil. -/
def GoSlice.isNil {α : Type} : GoSlice α → Bool
  | .nil => true
  | .mk _ => false

/-- The elements of the slice (a nil slice has none). -/
def GoSlice.toList {α : Type} : GoSlice α → List α
  | .nil => []
  | .mk l => l

/-- Go append of one element. -/
def goAppend {α : Type} : GoSlice α → α → GoSlice α
  | .nil, x => .mk [x]
  | .mk l, x => .mk (l ++ [x])

/-- The three fmt.Errorf sites of LoadExternalTransactions
(internal/util/data_loader.go): open failure, header-read failure, and
data-record-read failure.  In the row-level feed model below only
recordError can arise; open and header tokenization failures are below the
abstraction. -/
inductive LoadError where
  | openError
  | headerError
  | recordError
deriving DecidableEq

deriving instance DecidableEq for Except

/-- Digits of a nonempty unsigned decimal integer literal. -/
def digitsToNat? (cs : List Char) : Option Nat :=
  if cs ≠ [] ∧ cs.all Char.isDigit then
    some (cs.foldl (fun n c => 10 * n + (c.toNat - 48)) 0)
  else none

/-- Unsigned decimal literal, digits with an optional fractional part. -/
def parseUnsignedDec (cs : List Char) : Option Rat :=
  let ipart := cs.takeWhile Char.isDigit
  let rest := cs.dropWhile Char.isDigit
  match rest with
  | [] => (digitsToNat? ipart).map (fun n => (n : Rat))
  | '.' :: fpart =>
    match digitsToNat? ipart, digitsToNat? fpart with
    | some ni, some nf => some ((ni : Rat) + (nf : Rat) / ((10 : Rat) ^ fpart.length))
    | _, _ => none
  | _ => none

/-- Stand-in for Go strconv.ParseFloat restricted to plain signed decimal
literals with digits on both sides of the point; exponents, hex floats, Inf
and NaN spellings are outside the feeds modelled here.  Inputs that are not
such a literal yield none, as ParseFloat yields an error. -/
def parseFloat (s : String) : Option Rat :=
  match s.data with
  | '-' :: rest => (parseUnsignedDec rest).map (fun q => -q)
  | '+' :: rest => parseUnsignedDec rest
  | cs => parseUnsignedDec cs

/-- The data-row loop of LoadExternalTransactions.  A feed is modelled at the
csv-record level: a list of records, each a list of fields.  Go csv.Reader
with the default FieldsPerRecord = 0 fixes the expected field count from the
first record (the header) and returns ErrFieldCount for any later record
whose count differs; the loader treats every non-EOF read error as fatal
(`return nil, fmt.Errorf(...)`), so such a record aborts the load before the
`len(record) < 4` skip check is reached. -/
def loadLoop (expected : Nat) :
    List (List String) → GoSlice ExternalTransaction →
    Except LoadError (GoSlice ExternalTransaction)
  | [], acc => .ok acc
  | record :: rest, acc =>
    if record.length ≠ expected then .error .recordError
    else if record.length < 4 then loadLoop expected rest acc
    else
      match parseFloat (goTrim (record.getD 1 (""))) with
      | none => loadLoop expected rest acc
      | some amount =>
        loadLoop expected rest (goAppend acc
          { externalID := goTrim (record.getD 0 ("")),
            amount := amount,
            type := goTrim (goToUpper (record.getD 2 (""))),
            reference := goTrim (record.getD 3 ("")) })

/-- LoadExternalTransactions (internal/util/data_loader.go) over a feed given
as csv records.  An empty feed makes the header read return io.EOF and the
function returns the non-nil empty slice literal; otherwise the first record
is discarded as the header (fixing the expected field count) and the data
loop runs with the nil zero-value accumulator. -/
def LoadExternalTransactions (rows : List (List String)) :
    Except LoadError (GoSlice ExternalTransaction) :=
  match rows with
  | [] => .ok (.mk [])
  | header :: rest => loadLoop header.length rest .nil

/-- State of the matching loops of reconcileTransactions (reconciliation.go):
the two processed-tracking maps and the two pair buckets.  The Go code
appends formatted report strings to the buckets; the embedding stores the
pair itself and derives the report line from it afterwards (matchLine
below), which is faithful because each line is a pure function of the pair
at the moment it is appended. -/
structure RecState where
  processedDBTx : List Int
  processedCSVTx : List String
  foundInBoth : List (Transaction × ExternalTransaction)
  mismatchedAmounts : List (Transaction × ExternalTransaction)
deriving DecidableEq

/-- The first inner loop of reconcileTransactions: scan csvTxs in input
order, skipping externalIDs already marked processed, for the first record
whose type equals the normalized DB type and whose amount equals the DB
amount. -/
def findExactMatch (procCSV : List String) (dbTx : Transaction) :
    List ExternalTransaction → Option ExternalTransaction
  | [] => none
  | csvTx :: rest =>
    if procCSV.contains csvTx.externalID then findExactMatch procCSV dbTx rest
    else
      let normalizedDBType :=
        normalizeDBTransactionType dbTx.transactionType dbTx.fromAccountID dbTx.toAccountID
      if normalizedDBType = csvTx.type ∧ dbTx.amount = csvTx.amount then some csvTx
      else findExactMatch procCSV dbTx rest

/-- The second inner loop of reconcileTransactions: same scan, type equality
only. -/
def findTypeMatch (procCSV : List String) (dbTx : Transaction) :
    List ExternalTransaction → Option ExternalTransaction
  | [] => none
  | csvTx :: rest =>
    if procCSV.contains csvTx.externalID then findTypeMatch procCSV dbTx rest
    else
      let normalizedDBType :=
        normalizeDBTransactionType dbTx.transactionType dbTx.fromAccountID dbTx.toAccountID
      if normalizedDBType = csvTx.type then some csvTx
      else findTypeMatch procCSV dbTx rest

/-- One iteration of the outer loop of reconcileTransactions: a dbTx whose
TransactionID is already processed is skipped; otherwise the exact inner
loop runs and, when it found nothing, the type-only inner loop; a hit marks
both sides processed and appends the pair to the corresponding bucket. -/
def reconStep (csvTxs : List ExternalTransaction) (st : RecState) (dbTx : Transaction) :
    RecState :=
  if st.processedDBTx.contains dbTx.transactionID then st
  else
    match findExactMatch st.processedCSVTx dbTx csvTxs with
    | some csvTx =>
      { st with
        foundInBoth := st.foundInBoth ++ [(dbTx, csvTx)],
        processedDBTx := dbTx.transactionID :: st.processedDBTx,
        processedCSVTx := csvTx.externalID :: st.processedCSVTx }
    | none =>
      match findTypeMatch st.processedCSVTx dbTx csvTxs with
      | some csvTx =>
        { st with
          mismatchedAmounts := st.mismatchedAmounts ++ [(dbTx, csvTx)],
          processedDBTx := dbTx.transactionID :: st.processedDBTx,
          processedCSVTx := csvTx.externalID :: st.processedCSVTx }
      | none => st

/-- The outer loop of reconcileTransactions over dbTxs. -/
def reconLoop (csvTxs : List ExternalTransaction) :
    RecState → List Transaction → RecState
  | st, [] => st
  | st, dbTx :: rest => reconLoop csvTxs (reconStep csvTxs st dbTx) rest

/-- The four classified buckets (spec MatchOutcome): foundInBoth,
mismatchedAmounts, onlyInDB, onlyInCSV of reconcileTransactions. -/
structure MatchOutcome where
  matched : List (Transaction × ExternalTransaction)
  mismatchedAmount : List (Transaction × ExternalTransaction)
  onlyLedger : List Transaction
  onlyExternal : List ExternalTransaction
deriving DecidableEq

/-- reconcileTransactions (reconciliation.go): run the matching loops from
empty maps and empty buckets, then the two post-loop filters that produce
onlyInDB and onlyInCSV. -/
def reconcileTransactions (dbTxs : List Transaction) (csvTxs : List ExternalTransaction) :
    MatchOutcome :=
  let st := reconLoop csvTxs ⟨[], [], [], []⟩ dbTxs
  { matched := st.foundInBoth,
    mismatchedAmount := st.mismatchedAmounts,
    onlyLedger := dbTxs.filter (fun d => !st.processedDBTx.contains d.transactionID),
    onlyExternal := csvTxs.filter (fun c => !st.processedCSVTx.contains c.externalID) }

/-- Argument tuple of a MATCH or MISMATCH_AMOUNT report line (the two
fmt.Sprintf calls carry the same seven arguments); %.2f float rendering
itself is below the abstraction, a line is identified by its arguments. -/
structure MatchLine where
  dbID : Int
  dbAmount : Rat
  normType : String
  csvID : String
  csvAmount : Rat
  csvType : String
  reference : String
deriving DecidableEq

/-- Argument tuple of a Transactions-Only-in-Database report line. -/
structure OnlyDBLine where
  dbID : Int
  dbType : String
  amount : Rat
  description : String
deriving DecidableEq

/-- Argument tuple of a Transactions-Only-in-CSV report line. -/
structure OnlyCSVLine where
  csvID : String
  csvType : String
  amount : Rat
  reference : String
deriving DecidableEq

/-- The MATCH / MISMATCH_AMOUNT line of a pair, exactly the Sprintf
arguments of reconciliation.go. -/
def matchLine (p : Transaction × ExternalTransaction) : MatchLine :=
  { dbID := p.1.transactionID,
    dbAmount := p.1.amount,
    normType := normalizeDBTransactionType p.1.transactionType p.1.fromAccountID p.1.toAccountID,
    csvID := p.2.externalID,
    csvAmount := p.2.amount,
    csvType := p.2.type,
    reference := p.2.reference }

/-- The only-in-DB line: raw TransactionType, and Description.String (the
empty string when the NullString is invalid). -/
def onlyDBLine (t : Transaction) : OnlyDBLine :=
  { dbID := t.transactionID,
    dbType := t.transactionType,
    amount := t.amount,
    description := t.description.getD ("") }

/-- The only-in-CSV line. -/
def onlyCSVLine (c : ExternalTransaction) : OnlyCSVLine :=
  { csvID := c.externalID,
    csvType := c.type,
    amount := c.amount,
    reference := c.reference }

/-- The four report sections in their fixed print order; a section whose
list is empty prints a literal None. -/
structure ReportSections where
  foundInBoth : List MatchLine
  mismatchedAmounts : List MatchLine
  onlyInDB : List OnlyDBLine
  onlyInCSV : List OnlyCSVLine
deriving DecidableEq

/-- The report of reconcileTransactions: each bucket rendered in
classification order. -/
def renderReport (dbTxs : List Transaction) (csvTxs : List ExternalTransaction) :
    ReportSections :=
  let o := reconcileTransactions dbTxs csvTxs
  { foundInBoth := o.matched.map matchLine,
    mismatchedAmounts := o.mismatchedAmount.map matchLine,
    onlyInDB := o.onlyLedger.map onlyDBLine,
    onlyInCSV := o.onlyExternal.map onlyCSVLine }

/-- Ledger transaction with only the fields the matcher reads set; used for
concrete runs. -/
def mkTx (id : Int) (ty : String) (amt : Rat) : Transaction :=
  { transactionID := id, fromAccountID := none, toAccountID := none,
    transactionType := ty, amount := amt, transactionTs := 0,
    description := none, notes := none }

/-- External record with an empty reference; used for concrete runs. -/
def mkExt (id ty : String) (amt : Rat) : ExternalTransaction :=
  { externalID := id, amount := amt, type := ty, reference := ("") }

namespace Service

/-- normalizeDBTransactionType method of reconciliationServiceImpl (the
service copy): same switch and fallthrough as the standalone function. -/
def normalizeDBTransactionType (dbType : String) (fromID toID : Option Int) : String :=
  let dbType := goToUpper dbType
  if dbType = "DEPOSIT" then "DEPOSIT"
  else if dbType = "WITHDRAWAL" then "WITHDRAWAL"
  else if dbType = "TRANSFER" then
    if fromID.isSome && !toID.isSome then "TRANSFER_OUT"
    else if !fromID.isSome && toID.isSome then "TRANSFER_IN"
    else if fromID.isSome && toID.isSome then "INTERNAL_TRANSFER"
    else dbType
  else dbType

/-- First inner loop of the service ReconcileTransactions. -/
def findExactMatch (procCSV : List String) (dbTx : Transaction) :
    List ExternalTransaction → Option ExternalTransaction
  | [] => none
  | csvTx :: rest =>
    if procCSV.contains csvTx.externalID then findExactMatch procCSV dbTx rest
    else
      let normalizedDBType :=
        Service.normalizeDBTransactionType dbTx.transactionType dbTx.fromAccountID dbTx.toAccountID
      if normalizedDBType = csvTx.type ∧ dbTx.amount = csvTx.amount then some csvTx
      else findExactMatch procCSV dbTx rest

/-- Second inner loop of the service ReconcileTransactions. -/
def findTypeMatch (procCSV : List String) (dbTx : Transaction) :
    List ExternalTransaction → Option ExternalTransaction
  | [] => none
  | csvTx :: rest =>
    if procCSV.contains csvTx.externalID then findTypeMatch procCSV dbTx rest
    else
      let normalizedDBType :=
        Service.normalizeDBTransactionType dbTx.transactionType dbTx.fromAccountID dbTx.toAccountID
      if normalizedDBType = csvTx.type then some csvTx
      else findTypeMatch procCSV dbTx rest

/-- One outer-loop iteration of the service ReconcileTransactions. -/
def reconStep (csvTxs : List ExternalTransaction) (st : RecState) (dbTx : Transaction) :
    RecState :=
  if st.processedDBTx.contains dbTx.transactionID then st
  else
    match Service.findExactMatch st.processedCSVTx dbTx csvTxs with
    | some csvTx =>
      { st with
        foundInBoth := st.foundInBoth ++ [(dbTx, csvTx)],
        processedDBTx := dbTx.transactionID :: st.processedDBTx,
        processedCSVTx := csvTx.externalID :: st.processedCSVTx }
    | none =>
      match Service.findTypeMatch st.processedCSVTx dbTx csvTxs with
      | some csvTx =>
        { st with
          mismatchedAmounts := st.mismatchedAmounts ++ [(dbTx, csvTx)],
          processedDBTx := dbTx.transactionID :: st.processedDBTx,
          processedCSVTx := csvTx.externalID :: st.processedCSVTx }
      | none => st

/-- Outer loop of the service ReconcileTransactions. -/
def reconLoop (csvTxs : List ExternalTransaction) :
    RecState → List Transaction → RecState
  | st, [] => st
  | st, dbTx :: rest => Service.reconLoop csvTxs (Service.reconStep csvTxs st dbTx) rest

/-- Matching core of the service ReconcileTransactions, as a function of the
two already-loaded input sequences (the surrounding method only fetches
them from the repository and the data loader and log.Fatalf aborts on a
load error, which is outside the pure core compared here). -/
def ReconcileTransactions (dbTxs : List Transaction) (csvTxs : List ExternalTransaction) :
    MatchOutcome :=
  let st := Service.reconLoop csvTxs ⟨[], [], [], []⟩ dbTxs
  { matched := st.foundInBoth,
    mismatchedAmount := st.mismatchedAmounts,
    onlyLedger := dbTxs.filter (fun d => !st.processedDBTx.contains d.transactionID),
    onlyExternal := csvTxs.filter (fun c => !st.processedCSVTx.contains c.externalID) }

/-- The MATCH / MISMATCH_AMOUNT line of the service copy (identical Sprintf
arguments). -/
def matchLine (p : Transaction × ExternalTransaction) : MatchLine :=
  { dbID := p.1.transactionID,
    dbAmount := p.1.amount,
    normType := Service.normalizeDBTransactionType p.1.transactionType p.1.fromAccountID p.1.toAccountID,
    csvID := p.2.externalID,
    csvAmount := p.2.amount,
    csvType := p.2.type,
    reference := p.2.reference }

/-- The report of the service copy. -/
def renderReport (dbTxs : List Transaction) (csvTxs : List ExternalTransaction) :
    ReportSections :=
  let o := Service.ReconcileTransactions dbTxs csvTxs
  { foundInBoth := o.matched.map Service.matchLine,
    mismatchedAmounts := o.mismatchedAmount.map Service.matchLine,
    onlyInDB := o.onlyLedger.map onlyDBLine,
    onlyInCSV := o.onlyExternal.map onlyCSVLine }

end Service

/-- Follows the spec's words (§4.3 Pass 1), for the refinement claim C1: one
step of a complete exact-match pass over the whole ledger sequence — a
not-yet-matched ledger transaction selects the first not-yet-matched
external record with equal normalized type and equal amount. -/
def specPass1Step (csvTxs : List ExternalTransaction) (st : RecState) (d : Transaction) :
    RecState :=
  if st.processedDBTx.contains d.transactionID then st
  else
    match csvTxs.find? (fun c =>
        !st.processedCSVTx.contains c.externalID
        && decide (normalizeDBTransactionType d.transactionType d.fromAccountID d.toAccountID = c.type)
        && decide (d.amount = c.amount)) with
    | some c =>
      { st with
        foundInBoth := st.foundInBoth ++ [(d, c)],
        processedDBTx := d.transactionID :: st.processedDBTx,
        processedCSVTx := c.externalID :: st.processedCSVTx }
    | none => st

/-- Follows the spec's words (§4.3 Pass 2): after the whole exact pass, a
still-unconsumed ledger transaction selects the first not-yet-matched
external record with equal normalized type, recorded as a
mismatched-amount pair. -/
def specPass2Step (csvTxs : List ExternalTransaction) (st : RecState) (d : Transaction) :
    RecState :=
  if st.processedDBTx.contains d.transactionID then st
  else
    match csvTxs.find? (fun c =>
        !st.processedCSVTx.contains c.externalID
        && decide (normalizeDBTransactionType d.transactionType d.fromAccountID d.toAccountID = c.type)) with
    | some c =>
      { st with
        mismatchedAmounts := st.mismatchedAmounts ++ [(d, c)],
        processedDBTx := d.transactionID :: st.processedDBTx,
        processedCSVTx := c.externalID :: st.processedCSVTx }
    | none => st

/-- Follows the spec's words (§4.3): the global two-pass reference — the
complete exact pass over the whole ledger sequence first, only then the
type-only pass over the remainder, then the post-pass classification. -/
def specTwoPassReconcile (dbTxs : List Transaction) (csvTxs : List ExternalTransaction) :
    MatchOutcome :=
  let st1 := dbTxs.foldl (specPass1Step csvTxs) ⟨[], [], [], []⟩
  let st2 := dbTxs.foldl (specPass2Step csvTxs) st1
  { matched := st2.foundInBoth,
    mismatchedAmount := st2.mismatchedAmounts,
    onlyLedger := dbTxs.filter (fun d => !st2.processedDBTx.contains d.transactionID),
    onlyExternal := csvTxs.filter (fun c => !st2.processedCSVTx.contains c.externalID) }

/-- Follows the amended claim's words: one step of the per-transaction
greedy reference — each ledger transaction, in input order, first seeks an
exact match among unconsumed externals and only on failure a type-only
match, before the next ledger transaction is considered. -/
def interleavedStep (csvTxs : List ExternalTransaction) (st : RecState) (d : Transaction) :
    RecState :=
  if st.processedDBTx.contains d.transactionID then st
  else
    match csvTxs.find? (fun c =>
        !st.processedCSVTx.contains c.externalID
        && decide (normalizeDBTransactionType d.transactionType d.fromAccountID d.toAccountID = c.type)
        && decide (d.amount = c.amount)) with
    | some c =>
      { st with
        foundInBoth := st.foundInBoth ++ [(d, c)],
        processedDBTx := d.transactionID :: st.processedDBTx,
        processedCSVTx := c.externalID :: st.processedCSVTx }
    | none =>
      match csvTxs.find? (fun c =>
          !st.processedCSVTx.contains c.externalID
          && decide (normalizeDBTransactionType d.transactionType d.fromAccountID d.toAccountID = c.type)) with
      | some c =>
        { st with
          mismatchedAmounts := st.mismatchedAmounts ++ [(d, c)],
          processedDBTx := d.transactionID :: st.processedDBTx,
          processedCSVTx := c.externalID :: st.processedCSVTx }
      | none => st

/-- Follows the amended claim's words: the per-transaction greedy reference
reconciliation. -/
def interleavedReconcile (dbTxs : List Transaction) (csvTxs : List ExternalTransaction) :
    MatchOutcome :=
  let st := dbTxs.foldl (interleavedStep csvTxs) ⟨[], [], [], []⟩
  { matched := st.foundInBoth,
    mismatchedAmount := st.mismatchedAmounts,
    onlyLedger := dbTxs.filter (fun d => !st.processedDBTx.contains d.transactionID),
    onlyExternal := csvTxs.filter (fun c => !st.processedCSVTx.contains c.externalID) }

/-- All ledger TransactionIDs mentioned by an outcome, bucket by bucket:
matched pairs, then mismatched-amount pairs, then onlyLedger. -/
def ledgerIdsOf (o : MatchOutcome) : List Int :=
  ((o.matched ++ o.mismatchedAmount).map (fun p => p.1.transactionID))
    ++ o.onlyLedger.map (fun t => t.transactionID)

/-- All ExternalIDs mentioned by an outcome, bucket by bucket. -/
def externalIdsOf (o : MatchOutcome) : List String :=
  ((o.matched ++ o.mismatchedAmount).map (fun p => p.2.externalID))
    ++ o.onlyExternal.map (fun c => c.externalID)

/-- Invariant of the matching loop used for the partition property: the
processed lists are duplicate-free, each equals (up to permutation) the ids
of the pairs collected so far, and each only holds identities drawn from
the inputs. -/
structure PartInv (dbIds : List Int) (csvTxs : List ExternalTransaction) (st : RecState) : Prop where
  nodupDB : st.processedDBTx.Nodup
  nodupCSV : st.processedCSVTx.Nodup
  permDB : (((st.foundInBoth ++ st.mismatchedAmounts).map (fun p => p.1.transactionID))).Perm
      st.processedDBTx
  permCSV : (((st.foundInBoth ++ st.mismatchedAmounts).map (fun p => p.2.externalID))).Perm
      st.processedCSVTx
  subDB : ∀ x ∈ st.processedDBTx, x ∈ dbIds
  subCSV : ∀ x ∈ st.processedCSVTx, x ∈ csvTxs.map (fun c => c.externalID)

/-- Soundness of the mismatched bucket: every pair collected so far has
equal normalized type and unequal amounts. -/
def MisOK (st : RecState) : Prop :=
  ∀ p ∈ st.mismatchedAmounts,
    normalizeDBTransactionType p.1.transactionType p.1.fromAccountID p.1.toAccountID = p.2.type ∧
    p.1.amount ≠ p.2.amount

/-- C4: the normalizer maps DEPOSIT to DEPOSIT and WITHDRAWAL to WITHDRAWAL
(case-insensitively), maps TRANSFER according to the presence pattern of the
two account ids (out / in / internal), and for any other type returns the
upper-cased input unchanged; in particular normalize "deposit" = "DEPOSIT"
and normalize "FOO" = "FOO". -/
theorem normalizer_mapping (s : String) (f t : Option Int) :
    (goToUpper s = "DEPOSIT" → normalizeDBTransactionType s f t = "DEPOSIT") ∧
    (goToUpper s = "WITHDRAWAL" → normalizeDBTransactionType s f t = "WITHDRAWAL") ∧
    (goToUpper s = "TRANSFER" → f.isSome = true → t.isSome = false →
        normalizeDBTransactionType s f t = "TRANSFER_OUT") ∧
    (goToUpper s = "TRANSFER" → f.isSome = false → t.isSome = true →
        normalizeDBTransactionType s f t = "TRANSFER_IN") ∧
    (goToUpper s = "TRANSFER" → f.isSome = true → t.isSome = true →
        normalizeDBTransactionType s f t = "INTERNAL_TRANSFER") ∧
    (goToUpper s ≠ "DEPOSIT" → goToUpper s ≠ "WITHDRAWAL" → goToUpper s ≠ "TRANSFER" →
        normalizeDBTransactionType s f t = goToUpper s) ∧
    normalizeDBTransactionType ("deposit") f t = "DEPOSIT" ∧
    normalizeDBTransactionType ("FOO") f t = "FOO" := by
  refine ⟨?_, ?_, ?_, ?_, ?_, ?_, ?_, ?_⟩
  · intro h; simp [normalizeDBTransactionType, h]
  · intro h; simp [normalizeDBTransactionType, h]
  · intro h hf ht; simp [normalizeDBTransactionType, h, hf, ht]
  · intro h hf ht; simp [normalizeDBTransactionType, h, hf, ht]
  · intro h hf ht; simp [normalizeDBTransactionType, h, hf, ht]
  · intro h1 h2 h3; simp [normalizeDBTransactionType, h1, h2, h3]
  · show normalizeDBTransactionType ("deposit") f t = "DEPOSIT"
    have h : goToUpper ("deposit") = "DEPOSIT" := by decide
    simp [normalizeDBTransactionType, h]
  · show normalizeDBTransactionType ("FOO") f t = "FOO"
    have h : goToUpper ("FOO") = "FOO" := by decide
    simp [normalizeDBTransactionType, h]

/-- C4 witness: each branch of the mapping exercised at a concrete input. -/
theorem normalizer_mapping_witness :
    normalizeDBTransactionType ("Deposit") (some 1) none = "DEPOSIT" ∧
    normalizeDBTransactionType ("withdrawal") none none = "WITHDRAWAL" ∧
    normalizeDBTransactionType ("TRANSFER") (some 1) none = "TRANSFER_OUT" ∧
    normalizeDBTransactionType ("transfer") none (some 2) = "TRANSFER_IN" ∧
    normalizeDBTransactionType ("Transfer") (some 1) (some 2) = "INTERNAL_TRANSFER" ∧
    normalizeDBTransactionType ("bar") (some 1) none = "BAR" :=
  ⟨(normalizer_mapping ("Deposit") (some 1) none).1 (by decide),
   (normalizer_mapping ("withdrawal") none none).2.1 (by decide),
   (normalizer_mapping ("TRANSFER") (some 1) none).2.2.1 (by decide) (by decide) (by decide),
   (normalizer_mapping ("transfer") none (some 2)).2.2.2.1 (by decide) (by decide) (by decide),
   (normalizer_mapping ("Transfer") (some 1) (some 2)).2.2.2.2.1 (by decide) (by decide) (by decide),
   (normalizer_mapping ("bar") (some 1) none).2.2.2.2.2.1 (by decide) (by decide) (by decide)⟩

/-- C10: normalize("TRANSFER", hasFrom=false, hasTo=false) falls through to
the fallback and returns "TRANSFER", a value outside the five-value external
vocabulary. -/
theorem transfer_no_accounts_fallback :
    normalizeDBTransactionType ("TRANSFER") none none = "TRANSFER" ∧
    ("TRANSFER" ∉ ["DEPOSIT", "WITHDRAWAL", "TRANSFER_OUT", "TRANSFER_IN", "INTERNAL_TRANSFER"]) := by
  constructor
  · decide
  · decide

/-- C3 (code bug): a feed with a readable 4-field header, five valid rows and
one truncated 3-field row is aborted with a fatal record-read error — Go
csv.Reader enforces the header's field count and the loader treats the
resulting ErrFieldCount as fatal — whereas the claim (and the loader's own
skip-with-warning branch) expects the truncated row to be skipped and the
five valid records returned; dropping the truncated row does load exactly
the valid records in feed order. -/
theorem loader_truncated_row_fatal :
    LoadExternalTransactions
      [["external_id", "amount", "type", "reference"],
       ["E1", "100", "deposit", "r1"],
       ["E2", "250", "withdrawal", "r2"],
       ["E3", "75", "deposit", "r3"],
       ["E4", "10", "transfer_out", "r4"],
       ["E5", "20", "withdrawal", "r5"],
       ["E6", "30", "deposit"]] = .error .recordError ∧
    LoadExternalTransactions
      [["external_id", "amount", "type", "reference"],
       ["E1", "100", "deposit", "r1"],
       ["E2", "250", "withdrawal", "r2"],
       ["E3", "75", "deposit", "r3"],
       ["E4", "10", "transfer_out", "r4"],
       ["E5", "20", "withdrawal", "r5"]] =
      .ok (.mk
        [{ externalID := ("E1"), amount := 100, type := ("DEPOSIT"), reference := ("r1") },
         { externalID := ("E2"), amount := 250, type := ("WITHDRAWAL"), reference := ("r2") },
         { externalID := ("E3"), amount := 75, type := ("DEPOSIT"), reference := ("r3") },
         { externalID := ("E4"), amount := 10, type := ("TRANSFER_OUT"), reference := ("r4") },
         { externalID := ("E5"), amount := 20, type := ("WITHDRAWAL"), reference := ("r5") }]) := by
  constructor
  · decide
  · decide

/-- C7 counterexample: a header-only feed returns Go's nil slice (the
accumulator is never appended to), so the claimed non-nil empty sequence
fails for that case. -/
theorem loader_header_only_nil :
    LoadExternalTransactions [["external_id", "amount", "type", "reference"]]
      = .ok GoSlice.nil ∧
    (GoSlice.nil : GoSlice ExternalTransaction).isNil = true := by
  constructor
  · rfl
  · rfl

/-- C7 amended: an entirely empty feed and a header-only feed both load with
no error and zero records; the entirely empty feed yields the non-nil empty
slice while the header-only feed yields Go's nil (zero-length) slice. -/
theorem loader_empty_feed_ok (header : List String) :
    LoadExternalTransactions [] = .ok (GoSlice.mk []) ∧
    LoadExternalTransactions [header] = .ok GoSlice.nil ∧
    (GoSlice.mk ([] : List ExternalTransaction)).toList = [] ∧
    (GoSlice.nil : GoSlice ExternalTransaction).toList = [] :=
  ⟨rfl, rfl, rfl, rfl⟩

/-- C8: determinism — the classification is a pure function of the two
ordered input sequences; any two runs on the same inputs coincide (the
embedding is deterministic by construction: the Go code consults its maps
only by key lookup and never ranges over them, and uses no randomness or
clock). -/
theorem reconcile_deterministic (dbTxs : List Transaction) (csvTxs : List ExternalTransaction)
    (o1 o2 : MatchOutcome)
    (h1 : o1 = reconcileTransactions dbTxs csvTxs)
    (h2 : o2 = reconcileTransactions dbTxs csvTxs) : o1 = o2 :=
  h1.trans h2.symm

/-- C8 witness: two runs on a concrete input coincide. -/
theorem reconcile_deterministic_witness :
    reconcileTransactions [mkTx 1 ("DEPOSIT") 100] [mkExt ("E1") ("DEPOSIT") 100]
      = reconcileTransactions [mkTx 1 ("DEPOSIT") 100] [mkExt ("E1") ("DEPOSIT") 100] :=
  reconcile_deterministic [mkTx 1 ("DEPOSIT") 100] [mkExt ("E1") ("DEPOSIT") 100] _ _ rfl rfl

/-- C9: with two ledger transactions sharing TransactionID 1, once the first
is paired the second is skipped by the processed-map check and also excluded
from onlyInDB by the same map, so it appears in no bucket: the outputs list
only one ledger entry for two ledger inputs. -/
theorem duplicate_ledger_id_dropped :
    (reconcileTransactions [mkTx 1 ("DEPOSIT") 10, mkTx 1 ("DEPOSIT") 20]
        [mkExt ("E1") ("DEPOSIT") 10]).matched
      = [(mkTx 1 ("DEPOSIT") 10, mkExt ("E1") ("DEPOSIT") 10)] ∧
    (reconcileTransactions [mkTx 1 ("DEPOSIT") 10, mkTx 1 ("DEPOSIT") 20]
        [mkExt ("E1") ("DEPOSIT") 10]).mismatchedAmount = [] ∧
    (reconcileTransactions [mkTx 1 ("DEPOSIT") 10, mkTx 1 ("DEPOSIT") 20]
        [mkExt ("E1") ("DEPOSIT") 10]).onlyLedger = [] ∧
    (reconcileTransactions [mkTx 1 ("DEPOSIT") 10, mkTx 1 ("DEPOSIT") 20]
        [mkExt ("E1") ("DEPOSIT") 10]).onlyExternal = [] ∧
    (mkTx 1 ("DEPOSIT") 20 ∉
      ((reconcileTransactions [mkTx 1 ("DEPOSIT") 10, mkTx 1 ("DEPOSIT") 20]
          [mkExt ("E1") ("DEPOSIT") 10]).matched.map (fun p => p.1))) ∧
    (mkTx 1 ("DEPOSIT") 20 ∉
      ((reconcileTransactions [mkTx 1 ("DEPOSIT") 10, mkTx 1 ("DEPOSIT") 20]
          [mkExt ("E1") ("DEPOSIT") 10]).mismatchedAmount.map (fun p => p.1))) ∧
    (mkTx 1 ("DEPOSIT") 20 ∉
      (reconcileTransactions [mkTx 1 ("DEPOSIT") 10, mkTx 1 ("DEPOSIT") 20]
          [mkExt ("E1") ("DEPOSIT") 10]).onlyLedger) := by
  refine ⟨?_, ?_, ?_, ?_, ?_, ?_, ?_⟩ <;> decide

/-- C1 counterexample: on ledger [id 1 DEPOSIT 10, id 2 DEPOSIT 20] and
external [E1 DEPOSIT 20], the implementation pairs E1 with transaction 1 as
a mismatched-amount pair during the processing of transaction 1 — even
though E1 exactly matches the later transaction 2 — while the global
two-pass reference pairs E1 with transaction 2 exactly; the two results
differ. -/
theorem twopass_counterexample :
    reconcileTransactions [mkTx 1 ("DEPOSIT") 10, mkTx 2 ("DEPOSIT") 20]
        [mkExt ("E1") ("DEPOSIT") 20]
      ≠ specTwoPassReconcile [mkTx 1 ("DEPOSIT") 10, mkTx 2 ("DEPOSIT") 20]
        [mkExt ("E1") ("DEPOSIT") 20] ∧
    (reconcileTransactions [mkTx 1 ("DEPOSIT") 10, mkTx 2 ("DEPOSIT") 20]
        [mkExt ("E1") ("DEPOSIT") 20]).mismatchedAmount
      = [(mkTx 1 ("DEPOSIT") 10, mkExt ("E1") ("DEPOSIT") 20)] ∧
    (specTwoPassReconcile [mkTx 1 ("DEPOSIT") 10, mkTx 2 ("DEPOSIT") 20]
        [mkExt ("E1") ("DEPOSIT") 20]).matched
      = [(mkTx 2 ("DEPOSIT") 20, mkExt ("E1") ("DEPOSIT") 20)] ∧
    normalizeDBTransactionType (mkTx 2 ("DEPOSIT") 20).transactionType
        (mkTx 2 ("DEPOSIT") 20).fromAccountID (mkTx 2 ("DEPOSIT") 20).toAccountID
      = (mkExt ("E1") ("DEPOSIT") 20).type ∧
    (mkTx 2 ("DEPOSIT") 20).amount = (mkExt ("E1") ("DEPOSIT") 20).amount := by
  refine ⟨?_, ?_, ?_, ?_, ?_⟩ <;> decide

/-- A Bool that is not true is false. -/
theorem bool_eq_false {b : Bool} (h : ¬ b = true) : b = false := by
  cases b
  · rfl
  · exact absurd rfl h

/-- A hit of the exact inner loop lies in the scanned list, was not yet
processed, and satisfies both comparison criteria. -/
theorem findExactMatch_some {procCSV : List String} {dbTx : Transaction}
    {csvTxs : List ExternalTransaction} {c : ExternalTransaction}
    (h : findExactMatch procCSV dbTx csvTxs = some c) :
    c ∈ csvTxs ∧ procCSV.contains c.externalID = false ∧
    normalizeDBTransactionType dbTx.transactionType dbTx.fromAccountID dbTx.toAccountID = c.type ∧
    dbTx.amount = c.amount := by
  induction csvTxs with
  | nil => simp [findExactMatch] at h
  | cons a rest ih =>
    by_cases hp : procCSV.contains a.externalID
    · simp only [findExactMatch, hp, if_true] at h
      obtain ⟨h1, h2, h3, h4⟩ := ih h
      exact ⟨List.mem_cons_of_mem _ h1, h2, h3, h4⟩
    · by_cases hq : normalizeDBTransactionType dbTx.transactionType dbTx.fromAccountID
          dbTx.toAccountID = a.type ∧ dbTx.amount = a.amount
      · simp only [findExactMatch, hp, Bool.false_eq_true, if_false, hq, and_self, if_true,
          Option.some.injEq] at h
        subst h
        exact ⟨List.mem_cons_self _ _, bool_eq_false hp, hq.1, hq.2⟩
      · simp only [findExactMatch, hp, Bool.false_eq_true, if_false, hq, if_false] at h
        obtain ⟨h1, h2, h3, h4⟩ := ih h
        exact ⟨List.mem_cons_of_mem _ h1, h2, h3, h4⟩

/-- A hit of the type-only inner loop lies in the scanned list, was not yet
processed, and has the matching normalized type. -/
theorem findTypeMatch_some {procCSV : List String} {dbTx : Transaction}
    {csvTxs : List ExternalTransaction} {c : ExternalTransaction}
    (h : findTypeMatch procCSV dbTx csvTxs = some c) :
    c ∈ csvTxs ∧ procCSV.contains c.externalID = false ∧
    normalizeDBTransactionType dbTx.transactionType dbTx.fromAccountID dbTx.toAccountID = c.type := by
  induction csvTxs with
  | nil => simp [findTypeMatch] at h
  | cons a rest ih =>
    by_cases hp : procCSV.contains a.externalID
    · simp only [findTypeMatch, hp, if_true] at h
      obtain ⟨h1, h2, h3⟩ := ih h
      exact ⟨List.mem_cons_of_mem _ h1, h2, h3⟩
    · by_cases hq : normalizeDBTransactionType dbTx.transactionType dbTx.fromAccountID
          dbTx.toAccountID = a.type
      · simp only [findTypeMatch, hp, Bool.false_eq_true, if_false, hq, if_true,
          Option.some.injEq] at h
        subst h
        exact ⟨List.mem_cons_self _ _, bool_eq_false hp, hq⟩
      · simp only [findTypeMatch, hp, Bool.false_eq_true, if_false, hq, if_false] at h
        obtain ⟨h1, h2, h3⟩ := ih h
        exact ⟨List.mem_cons_of_mem _ h1, h2, h3⟩

/-- When the exact inner loop misses, no unprocessed record of the scanned
list satisfies both criteria. -/
theorem findExactMatch_none {procCSV : List String} {dbTx : Transaction}
    {csvTxs : List ExternalTransaction}
    (h : findExactMatch procCSV dbTx csvTxs = none)
    {c : ExternalTransaction} (hc : c ∈ csvTxs)
    (hproc : procCSV.contains c.externalID = false) :
    ¬(normalizeDBTransactionType dbTx.transactionType dbTx.fromAccountID dbTx.toAccountID = c.type ∧
      dbTx.amount = c.amount) := by
  induction csvTxs with
  | nil => cases hc
  | cons a rest ih =>
    rcases List.mem_cons.mp hc with rfl | hmem
    · intro hcon
      by_cases hp : procCSV.contains c.externalID
      · rw [hp] at hproc; cases hproc
      · simp only [findExactMatch, hp, Bool.false_eq_true, if_false, hcon, and_self,
          if_true] at h
        exact Option.noConfusion h
    · by_cases hp : procCSV.contains a.externalID
      · simp only [findExactMatch, hp, if_true] at h
        exact ih h hmem
      · by_cases hq : normalizeDBTransactionType dbTx.transactionType dbTx.fromAccountID
            dbTx.toAccountID = a.type ∧ dbTx.amount = a.amount
        · simp only [findExactMatch, hp, Bool.false_eq_true, if_false, hq, and_self,
            if_true] at h
          exact Option.noConfusion h
        · simp only [findExactMatch, hp, Bool.false_eq_true, if_false, hq, if_false] at h
          exact ih h hmem

/-- One outer-loop step preserves mismatched-bucket soundness: a pair enters
the bucket only when the exact loop missed, and the processed set seen by
the two inner loops is the same, so the chosen record's amount must differ. -/
theorem reconStep_misOK {csvTxs : List ExternalTransaction} {st : RecState}
    (h : MisOK st) (d : Transaction) : MisOK (reconStep csvTxs st d) := by
  unfold reconStep
  by_cases hp : st.processedDBTx.contains d.transactionID
  · simp only [hp, if_true]; exact h
  · simp only [hp, Bool.false_eq_true, if_false]
    cases hfe : findExactMatch st.processedCSVTx d csvTxs with
    | some c =>
      intro p hmem
      exact h p hmem
    | none =>
      cases hft : findTypeMatch st.processedCSVTx d csvTxs with
      | none => exact h
      | some c =>
        intro p hmem
        simp only [List.mem_append, List.mem_singleton] at hmem
        rcases hmem with hmem | rfl
        · exact h p hmem
        · obtain ⟨hcmem, hcproc, hctype⟩ := findTypeMatch_some hft
          refine ⟨hctype, fun heq => ?_⟩
          exact findExactMatch_none hfe hcmem hcproc ⟨hctype, heq⟩

/-- The whole outer loop preserves mismatched-bucket soundness. -/
theorem reconLoop_misOK {csvTxs : List ExternalTransaction} {dbTxs : List Transaction}
    {st : RecState} (h : MisOK st) : MisOK (reconLoop csvTxs st dbTxs) := by
  induction dbTxs generalizing st with
  | nil => exact h
  | cons d rest ih => exact ih (reconStep_misOK h d)

/-- C5: every pair in the mismatchedAmount bucket pairs a ledger transaction
and an external record with equal normalized type and unequal amounts; no
equal-type equal-amount pair is ever classified mismatchedAmount. -/
theorem mismatched_pairs_sound (dbTxs : List Transaction) (csvTxs : List ExternalTransaction)
    (p : Transaction × ExternalTransaction)
    (hp : p ∈ (reconcileTransactions dbTxs csvTxs).mismatchedAmount) :
    normalizeDBTransactionType p.1.transactionType p.1.fromAccountID p.1.toAccountID = p.2.type ∧
    p.1.amount ≠ p.2.amount := by
  have hinit : MisOK (⟨[], [], [], []⟩ : RecState) := by
    intro q hq; cases hq
  exact reconLoop_misOK hinit p hp

/-- C5 witness: the mismatched WITHDRAWAL scenario -50 vs -40. -/
theorem mismatched_pairs_sound_witness :
    ((mkTx 2 ("WITHDRAWAL") (-50), mkExt ("E2") ("WITHDRAWAL") (-40)) ∈
      (reconcileTransactions [mkTx 2 ("WITHDRAWAL") (-50)]
        [mkExt ("E2") ("WITHDRAWAL") (-40)]).mismatchedAmount) ∧
    (normalizeDBTransactionType (mkTx 2 ("WITHDRAWAL") (-50)).transactionType
        (mkTx 2 ("WITHDRAWAL") (-50)).fromAccountID (mkTx 2 ("WITHDRAWAL") (-50)).toAccountID
      = (mkExt ("E2") ("WITHDRAWAL") (-40)).type ∧
    (mkTx 2 ("WITHDRAWAL") (-50)).amount ≠ (mkExt ("E2") ("WITHDRAWAL") (-40)).amount) :=
  ⟨by decide,
   mismatched_pairs_sound [mkTx 2 ("WITHDRAWAL") (-50)] [mkExt ("E2") ("WITHDRAWAL") (-40)]
     (mkTx 2 ("WITHDRAWAL") (-50), mkExt ("E2") ("WITHDRAWAL") (-40)) (by decide)⟩

/-- The exact inner loop is the first-fit search the amended claim
describes: List.find? over the feed with the unconsumed-and-both-criteria
predicate. -/
theorem findExactMatch_eq_find? (procCSV : List String) (dbTx : Transaction)
    (csvTxs : List ExternalTransaction) :
    findExactMatch procCSV dbTx csvTxs
      = csvTxs.find? (fun c =>
          !procCSV.contains c.externalID
          && decide (normalizeDBTransactionType dbTx.transactionType dbTx.fromAccountID
              dbTx.toAccountID = c.type)
          && decide (dbTx.amount = c.amount)) := by
  induction csvTxs with
  | nil => rfl
  | cons a rest ih =>
    by_cases hp : a.externalID ∈ procCSV
    · simp [findExactMatch, List.find?, hp, ih]
    · by_cases h1 : normalizeDBTransactionType dbTx.transactionType dbTx.fromAccountID
          dbTx.toAccountID = a.type
      · by_cases h2 : dbTx.amount = a.amount
        · simp [findExactMatch, List.find?, hp, h1, h2]
        · simp [findExactMatch, List.find?, hp, h1, h2, ih]
      · simp [findExactMatch, List.find?, hp, h1, ih]

/-- The type-only inner loop as the corresponding List.find?. -/
theorem findTypeMatch_eq_find? (procCSV : List String) (dbTx : Transaction)
    (csvTxs : List ExternalTransaction) :
    findTypeMatch procCSV dbTx csvTxs
      = csvTxs.find? (fun c =>
          !procCSV.contains c.externalID
          && decide (normalizeDBTransactionType dbTx.transactionType dbTx.fromAccountID
              dbTx.toAccountID = c.type)) := by
  induction csvTxs with
  | nil => rfl
  | cons a rest ih =>
    by_cases hp : a.externalID ∈ procCSV
    · simp [findTypeMatch, List.find?, hp, ih]
    · by_cases h1 : normalizeDBTransactionType dbTx.transactionType dbTx.fromAccountID
          dbTx.toAccountID = a.type
      · simp [findTypeMatch, List.find?, hp, h1]
      · simp [findTypeMatch, List.find?, hp, h1, ih]

/-- One implementation step equals one step of the per-transaction greedy
reference. -/
theorem reconStep_eq_interleavedStep (csvTxs : List ExternalTransaction) (st : RecState)
    (d : Transaction) : reconStep csvTxs st d = interleavedStep csvTxs st d := by
  unfold reconStep interleavedStep
  rw [← findExactMatch_eq_find?, ← findTypeMatch_eq_find?]

/-- The implementation's outer loop is the left fold of the reference step. -/
theorem reconLoop_eq_foldl (csvTxs : List ExternalTransaction) (dbTxs : List Transaction)
    (st : RecState) :
    reconLoop csvTxs st dbTxs = dbTxs.foldl (interleavedStep csvTxs) st := by
  induction dbTxs generalizing st with
  | nil => rfl
  | cons d rest ih =>
    simp only [reconLoop, List.foldl, reconStep_eq_interleavedStep, ih]

/-- C1 amended: the matcher is per-ledger-transaction greedy, not globally
two-pass — for each ledger transaction in input order it first scans
unconsumed external records for an exact (type and amount) match and only
on failure scans again for a type-only match, consuming the first hit,
before the next ledger transaction is considered; the implementation
equals this interleaved reference on all inputs. -/
theorem matcher_interleaved_equiv (dbTxs : List Transaction)
    (csvTxs : List ExternalTransaction) :
    reconcileTransactions dbTxs csvTxs = interleavedReconcile dbTxs csvTxs := by
  unfold reconcileTransactions interleavedReconcile
  rw [reconLoop_eq_foldl]

/-- The two copies of the normalizer are the same function. -/
theorem service_normalize_eq (s : String) (f t : Option Int) :
    Service.normalizeDBTransactionType s f t = normalizeDBTransactionType s f t := rfl

/-- The two copies of the exact inner loop agree. -/
theorem service_findExactMatch_eq (procCSV : List String) (dbTx : Transaction)
    (csvTxs : List ExternalTransaction) :
    Service.findExactMatch procCSV dbTx csvTxs = findExactMatch procCSV dbTx csvTxs := by
  induction csvTxs with
  | nil => rfl
  | cons a rest ih =>
    simp only [Service.findExactMatch, findExactMatch, service_normalize_eq, ih]

/-- The two copies of the type-only inner loop agree. -/
theorem service_findTypeMatch_eq (procCSV : List String) (dbTx : Transaction)
    (csvTxs : List ExternalTransaction) :
    Service.findTypeMatch procCSV dbTx csvTxs = findTypeMatch procCSV dbTx csvTxs := by
  induction csvTxs with
  | nil => rfl
  | cons a rest ih =>
    simp only [Service.findTypeMatch, findTypeMatch, service_normalize_eq, ih]

/-- The two copies of the outer-loop body agree. -/
theorem service_reconStep_eq (csvTxs : List ExternalTransaction) (st : RecState)
    (d : Transaction) : Service.reconStep csvTxs st d = reconStep csvTxs st d := by
  unfold Service.reconStep reconStep
  rw [service_findExactMatch_eq, service_findTypeMatch_eq]

/-- The two copies of the outer loop agree. -/
theorem service_reconLoop_eq (csvTxs : List ExternalTransaction) (dbTxs : List Transaction)
    (st : RecState) : Service.reconLoop csvTxs st dbTxs = reconLoop csvTxs st dbTxs := by
  induction dbTxs generalizing st with
  | nil => rfl
  | cons d rest ih =>
    simp only [Service.reconLoop, reconLoop, service_reconStep_eq, ih]

/-- The two matching cores agree on the whole outcome. -/
theorem service_core_eq (dbTxs : List Transaction) (csvTxs : List ExternalTransaction) :
    Service.ReconcileTransactions dbTxs csvTxs = reconcileTransactions dbTxs csvTxs := by
  unfold Service.ReconcileTransactions reconcileTransactions
  rw [service_reconLoop_eq]

/-- C6: the standalone reconcileTransactions and the service
ReconcileTransactions produce identical bucket classifications and
identical rendered report sections on every pair of input sequences. -/
theorem service_matcher_equiv (dbTxs : List Transaction)
    (csvTxs : List ExternalTransaction) :
    Service.ReconcileTransactions dbTxs csvTxs = reconcileTransactions dbTxs csvTxs ∧
    Service.renderReport dbTxs csvTxs = renderReport dbTxs csvTxs := by
  refine ⟨service_core_eq dbTxs csvTxs, ?_⟩
  unfold Service.renderReport renderReport
  rw [service_core_eq]
  rfl

/-- List.contains agrees with membership under lawful equality. -/
theorem contains_true_iff {α : Type} [BEq α] [LawfulBEq α] (l : List α) (a : α) :
    l.contains a = true ↔ a ∈ l := by
  simp

/-- A key with contains = false is not a member. -/
theorem not_mem_of_contains_false {α : Type} [BEq α] [LawfulBEq α] {l : List α} {a : α}
    (h : l.contains a = false) : a ∉ l := by
  intro hmem
  rw [(contains_true_iff l a).2 hmem] at h
  exact Bool.noConfusion h

/-- Mapping after filtering on a property of the mapped value. -/
theorem map_filter_comm {α β : Type} (f : α → β) (p : β → Bool) (l : List α) :
    (l.filter (fun x => p (f x))).map f = (l.map f).filter p := by
  induction l with
  | nil => rfl
  | cons a t ih => by_cases h : p (f a) <;> simp [h, ih]

/-- One outer-loop step preserves the partition invariant. -/
theorem reconStep_partInv {dbIds : List Int} {csvTxs : List ExternalTransaction}
    {st : RecState} (h : PartInv dbIds csvTxs st) {d : Transaction}
    (hd : d.transactionID ∈ dbIds) : PartInv dbIds csvTxs (reconStep csvTxs st d) := by
  unfold reconStep
  by_cases hp : st.processedDBTx.contains d.transactionID
  · simp only [hp, if_true]
    exact h
  · simp only [hp, Bool.false_eq_true, if_false]
    have hdnm : d.transactionID ∉ st.processedDBTx := fun hmem =>
      hp ((contains_true_iff _ _).2 hmem)
    cases hfe : findExactMatch st.processedCSVTx d csvTxs with
    | some c =>
      obtain ⟨hcmem, hcproc, -, -⟩ := findExactMatch_some hfe
      have hcnm : c.externalID ∉ st.processedCSVTx := not_mem_of_contains_false hcproc
      have hbaseDB := h.permDB
      rw [List.map_append] at hbaseDB
      have hbaseCSV := h.permCSV
      rw [List.map_append] at hbaseCSV
      refine ⟨List.nodup_cons.mpr ⟨hdnm, h.nodupDB⟩,
        List.nodup_cons.mpr ⟨hcnm, h.nodupCSV⟩, ?_, ?_, ?_, ?_⟩
      · simp only [List.map_append, List.map_cons, List.map_nil, List.append_assoc,
          List.singleton_append]
        exact List.perm_middle.trans (hbaseDB.cons d.transactionID)
      · simp only [List.map_append, List.map_cons, List.map_nil, List.append_assoc,
          List.singleton_append]
        exact List.perm_middle.trans (hbaseCSV.cons c.externalID)
      · intro x hx
        rcases List.mem_cons.mp hx with rfl | hx2
        · exact hd
        · exact h.subDB x hx2
      · intro x hx
        rcases List.mem_cons.mp hx with rfl | hx2
        · exact List.mem_map_of_mem _ hcmem
        · exact h.subCSV x hx2
    | none =>
      cases hft : findTypeMatch st.processedCSVTx d csvTxs with
      | none => exact h
      | some c =>
        obtain ⟨hcmem, hcproc, -⟩ := findTypeMatch_some hft
        have hcnm : c.externalID ∉ st.processedCSVTx := not_mem_of_contains_false hcproc
        have hbaseDB := h.permDB
        rw [List.map_append] at hbaseDB
        have hbaseCSV := h.permCSV
        rw [List.map_append] at hbaseCSV
        refine ⟨List.nodup_cons.mpr ⟨hdnm, h.nodupDB⟩,
          List.nodup_cons.mpr ⟨hcnm, h.nodupCSV⟩, ?_, ?_, ?_, ?_⟩
        · simp only [List.map_append, List.map_cons, List.map_nil]
          rw [← List.append_assoc]
          exact (List.perm_append_singleton _ _).trans (hbaseDB.cons d.transactionID)
        · simp only [List.map_append, List.map_cons, List.map_nil]
          rw [← List.append_assoc]
          exact (List.perm_append_singleton _ _).trans (hbaseCSV.cons c.externalID)
        · intro x hx
          rcases List.mem_cons.mp hx with rfl | hx2
          · exact hd
          · exact h.subDB x hx2
        · intro x hx
          rcases List.mem_cons.mp hx with rfl | hx2
          · exact List.mem_map_of_mem _ hcmem
          · exact h.subCSV x hx2

/-- The whole outer loop preserves the partition invariant. -/
theorem reconLoop_partInv {dbIds : List Int} {csvTxs : List ExternalTransaction}
    {st : RecState} (h : PartInv dbIds csvTxs st) {dbTxs : List Transaction}
    (hsub : ∀ d ∈ dbTxs, d.transactionID ∈ dbIds) :
    PartInv dbIds csvTxs (reconLoop csvTxs st dbTxs) := by
  induction dbTxs generalizing st with
  | nil => exact h
  | cons d rest ih =>
    exact ih (reconStep_partInv h (hsub d (List.mem_cons_self _ _)))
      (fun x hx => hsub x (List.mem_cons_of_mem _ hx))

/-- C2: partition completeness — when ledger ids and external ids are
pairwise distinct, the ledger ids listed across matched, mismatchedAmount
and onlyLedger are a duplicate-free permutation of the input ledger ids,
and symmetrically for external ids: every identity lands in exactly one
bucket and none is dropped. -/
theorem reconcile_partition_complete (dbTxs : List Transaction)
    (csvTxs : List ExternalTransaction)
    (hdb : (dbTxs.map (fun t => t.transactionID)).Nodup)
    (hcsv : (csvTxs.map (fun c => c.externalID)).Nodup) :
    (ledgerIdsOf (reconcileTransactions dbTxs csvTxs)).Perm
      (dbTxs.map (fun t => t.transactionID)) ∧
    (ledgerIdsOf (reconcileTransactions dbTxs csvTxs)).Nodup ∧
    (externalIdsOf (reconcileTransactions dbTxs csvTxs)).Perm
      (csvTxs.map (fun c => c.externalID)) ∧
    (externalIdsOf (reconcileTransactions dbTxs csvTxs)).Nodup := by
  have hinit : PartInv (dbTxs.map (fun t => t.transactionID)) csvTxs ⟨[], [], [], []⟩ := by
    refine ⟨List.nodup_nil, List.nodup_nil, by simp, by simp, ?_, ?_⟩
    · intro x hx; cases hx
    · intro x hx; cases hx
  have hfin := reconLoop_partInv hinit (fun d hd => List.mem_map_of_mem _ hd)
  set stf := reconLoop csvTxs ⟨[], [], [], []⟩ dbTxs with hstf
  have hbaseDB := hfin.permDB
  rw [List.map_append] at hbaseDB
  have hbaseCSV := hfin.permCSV
  rw [List.map_append] at hbaseCSV
  have hprocDB : stf.processedDBTx.Perm
      ((dbTxs.map (fun t => t.transactionID)).filter
        (fun i => stf.processedDBTx.contains i)) := by
    refine (List.perm_ext_iff_of_nodup hfin.nodupDB (hdb.filter _)).2 ?_
    intro a
    constructor
    · intro ha
      exact List.mem_filter.2 ⟨hfin.subDB a ha, (contains_true_iff _ _).2 ha⟩
    · intro ha
      exact (contains_true_iff _ _).1 (List.mem_filter.1 ha).2
  have hprocCSV : stf.processedCSVTx.Perm
      ((csvTxs.map (fun c => c.externalID)).filter
        (fun i => stf.processedCSVTx.contains i)) := by
    refine (List.perm_ext_iff_of_nodup hfin.nodupCSV (hcsv.filter _)).2 ?_
    intro a
    constructor
    · intro ha
      exact List.mem_filter.2 ⟨hfin.subCSV a ha, (contains_true_iff _ _).2 ha⟩
    · intro ha
      exact (contains_true_iff _ _).1 (List.mem_filter.1 ha).2
  have hmfDB : (dbTxs.filter
        (fun d2 => !stf.processedDBTx.contains d2.transactionID)).map
        (fun t => t.transactionID)
      = (dbTxs.map (fun t => t.transactionID)).filter
        (fun i => !stf.processedDBTx.contains i) :=
    map_filter_comm (fun t => t.transactionID) (fun i => !stf.processedDBTx.contains i) dbTxs
  have hmfCSV : (csvTxs.filter
        (fun c2 => !stf.processedCSVTx.contains c2.externalID)).map
        (fun c => c.externalID)
      = (csvTxs.map (fun c => c.externalID)).filter
        (fun i => !stf.processedCSVTx.contains i) :=
    map_filter_comm (fun c => c.externalID) (fun i => !stf.processedCSVTx.contains i) csvTxs
  have hperm1 : (ledgerIdsOf (reconcileTransactions dbTxs csvTxs)).Perm
      (dbTxs.map (fun t => t.transactionID)) := by
    show (((stf.foundInBoth ++ stf.mismatchedAmounts).map (fun p => p.1.transactionID))
        ++ ((dbTxs.filter (fun d2 => !stf.processedDBTx.contains d2.transactionID)).map
          (fun t => t.transactionID))).Perm (dbTxs.map (fun t => t.transactionID))
    rw [List.map_append, hmfDB]
    refine ((hbaseDB.trans hprocDB).append_right _).trans ?_
    exact List.filter_append_perm _ _
  have hperm2 : (externalIdsOf (reconcileTransactions dbTxs csvTxs)).Perm
      (csvTxs.map (fun c => c.externalID)) := by
    show (((stf.foundInBoth ++ stf.mismatchedAmounts).map (fun p => p.2.externalID))
        ++ ((csvTxs.filter (fun c2 => !stf.processedCSVTx.contains c2.externalID)).map
          (fun c => c.externalID))).Perm (csvTxs.map (fun c => c.externalID))
    rw [List.map_append, hmfCSV]
    refine ((hbaseCSV.trans hprocCSV).append_right _).trans ?_
    exact List.filter_append_perm _ _
  exact ⟨hperm1, hperm1.symm.nodup hdb, hperm2, hperm2.symm.nodup hcsv⟩

/-- C2 witness: a concrete duplicate-free run covering all four buckets. -/
theorem reconcile_partition_complete_witness :
    (([mkTx 1 ("DEPOSIT") 100, mkTx 2 ("WITHDRAWAL") 50, mkTx 3 ("FEE") 7].map
        (fun t => t.transactionID)).Nodup) ∧
    (([mkExt ("E1") ("DEPOSIT") 100, mkExt ("E2") ("WITHDRAWAL") 40,
        mkExt ("E9") ("INTEREST") 1].map (fun c => c.externalID)).Nodup) ∧
    ((ledgerIdsOf (reconcileTransactions
          [mkTx 1 ("DEPOSIT") 100, mkTx 2 ("WITHDRAWAL") 50, mkTx 3 ("FEE") 7]
          [mkExt ("E1") ("DEPOSIT") 100, mkExt ("E2") ("WITHDRAWAL") 40,
            mkExt ("E9") ("INTEREST") 1])).Perm
        ([mkTx 1 ("DEPOSIT") 100, mkTx 2 ("WITHDRAWAL") 50, mkTx 3 ("FEE") 7].map
          (fun t => t.transactionID)) ∧
      (ledgerIdsOf (reconcileTransactions
          [mkTx 1 ("DEPOSIT") 100, mkTx 2 ("WITHDRAWAL") 50, mkTx 3 ("FEE") 7]
          [mkExt ("E1") ("DEPOSIT") 100, mkExt ("E2") ("WITHDRAWAL") 40,
            mkExt ("E9") ("INTEREST") 1])).Nodup ∧
      (externalIdsOf (reconcileTransactions
          [mkTx 1 ("DEPOSIT") 100, mkTx 2 ("WITHDRAWAL") 50, mkTx 3 ("FEE") 7]
          [mkExt ("E1") ("DEPOSIT") 100, mkExt ("E2") ("WITHDRAWAL") 40,
            mkExt ("E9") ("INTEREST") 1])).Perm
        ([mkExt ("E1") ("DEPOSIT") 100, mkExt ("E2") ("WITHDRAWAL") 40,
            mkExt ("E9") ("INTEREST") 1].map (fun c => c.externalID)) ∧
      (externalIdsOf (reconcileTransactions
          [mkTx 1 ("DEPOSIT") 100, mkTx 2 ("WITHDRAWAL") 50, mkTx 3 ("FEE") 7]
          [mkExt ("E1") ("DEPOSIT") 100, mkExt ("E2") ("WITHDRAWAL") 40,
            mkExt ("E9") ("INTEREST") 1])).Nodup) :=
  ⟨by decide, by decide,
   reconcile_partition_complete
     [mkTx 1 ("DEPOSIT") 100, mkTx 2 ("WITHDRAWAL") 50, mkTx 3 ("FEE") 7]
     [mkExt ("E1") ("DEPOSIT") 100, mkExt ("E2") ("WITHDRAWAL") 40,
       mkExt ("E9") ("INTEREST") 1] (by decide) (by decide)⟩
